import Mathlib

/-!
# Verification of the snowflake-rs browser-SSO and connection layer

Shallow embedding of `src/snowflake-api/src/browser.rs` and
`src/snowflake-api/src/connection.rs`, together with proofs of the
testable properties stated in the specification.

Strings from the Rust source (`&str`, `String`) are modelled as `List Char`
(the sequence of Unicode scalar values, matching Rust's `str::chars`);
byte-level operations (percent decoding, UTF-8 validation) are modelled on
`List UInt8` with an explicit UTF-8 encoder/decoder mirroring Rust's
`String::from_utf8` validity rules.
-/

namespace Snowflake

/-! ## Rust `char::is_whitespace` (the Unicode White_Space property)

`str::split_whitespace` splits on `char::is_whitespace`, which is the
Unicode `White_Space` property; the code points carrying it are fixed. -/

def isRustWhitespace (c : Char) : Bool :=
  let n := c.toNat
  (0x09 ≤ n && n ≤ 0x0D) || n = 0x20 || n = 0x85 || n = 0xA0 || n = 0x1680 ||
    (0x2000 ≤ n && n ≤ 0x200A) || n = 0x2028 || n = 0x2029 || n = 0x202F ||
    n = 0x205F || n = 0x3000

/-! ## `str::split_whitespace`

Splits the character sequence at runs of whitespace; produces no empty
words, and ignores leading and trailing whitespace. -/

def splitWsAux (acc : List Char) : List Char → List (List Char)
  | [] => if acc.isEmpty then [] else [acc.reverse]
  | c :: cs =>
    if isRustWhitespace c then
      if acc.isEmpty then splitWsAux [] cs
      else acc.reverse :: splitWsAux [] cs
    else
      splitWsAux (c :: acc) cs

def splitWs (l : List Char) : List (List Char) :=
  splitWsAux [] l

/-! ## UTF-8 encoding and validation

Rust `str` values are UTF-8 byte sequences; `urlencoding::decode` operates
on the bytes and re-validates the result with `String::from_utf8`. We model
the encoder, and a decoder rejecting exactly what Rust rejects (overlong
forms, surrogates, values above U+10FFFF, truncated sequences). -/

def utf8Encode (c : Char) : List UInt8 :=
  let v := c.toNat
  if v < 0x80 then
    [UInt8.ofNat v]
  else if v < 0x800 then
    [UInt8.ofNat (0xC0 + v / 0x40), UInt8.ofNat (0x80 + v % 0x40)]
  else if v < 0x10000 then
    [UInt8.ofNat (0xE0 + v / 0x1000), UInt8.ofNat (0x80 + v / 0x40 % 0x40),
      UInt8.ofNat (0x80 + v % 0x40)]
  else
    [UInt8.ofNat (0xF0 + v / 0x40000), UInt8.ofNat (0x80 + v / 0x1000 % 0x40),
      UInt8.ofNat (0x80 + v / 0x40 % 0x40), UInt8.ofNat (0x80 + v % 0x40)]

def strToBytes (cs : List Char) : List UInt8 :=
  cs.flatMap utf8Encode

def isCont (b : UInt8) : Bool :=
  0x80 ≤ b.toNat && b.toNat ≤ 0xBF

def utf8Decode : List UInt8 → Option (List Char)
  | [] => some []
  | b :: bs =>
    let n := b.toNat
    if n < 0x80 then
      (utf8Decode bs).map (fun cs => Char.ofNat n :: cs)
    else if n < 0xC2 then
      none
    else if n < 0xE0 then
      match bs with
      | c1 :: tl =>
        if isCont c1 then
          (utf8Decode tl).map
            (fun cs => Char.ofNat ((n - 0xC0) * 0x40 + (c1.toNat - 0x80)) :: cs)
        else none
      | _ => none
    else if n < 0xF0 then
      match bs with
      | c1 :: c2 :: tl =>
        if isCont c1 && isCont c2 &&
            !(n = 0xE0 && c1.toNat < 0xA0) && !(n = 0xED && 0xA0 ≤ c1.toNat) then
          (utf8Decode tl).map
            (fun cs =>
              Char.ofNat ((n - 0xE0) * 0x1000 + (c1.toNat - 0x80) * 0x40 +
                (c2.toNat - 0x80)) :: cs)
        else none
      | _ => none
    else if n < 0xF5 then
      match bs with
      | c1 :: c2 :: c3 :: tl =>
        if isCont c1 && isCont c2 && isCont c3 &&
            !(n = 0xF0 && c1.toNat < 0x90) && !(n = 0xF4 && 0x90 ≤ c1.toNat) then
          (utf8Decode tl).map
            (fun cs =>
              Char.ofNat ((n - 0xF0) * 0x40000 + (c1.toNat - 0x80) * 0x1000 +
                (c2.toNat - 0x80) * 0x40 + (c3.toNat - 0x80)) :: cs)
        else none
      | _ => none
    else
      none

/-! ## Percent decoding (the `urlencoding` crate)

`urlencoding::decode` percent-decodes the raw bytes: a `%` followed by two
hex digits becomes the encoded byte; a malformed escape is passed through
as literal bytes (resuming at the first byte that failed to be a hex
digit). The byte-level pass never fails; only the final UTF-8 validation
of the decoded bytes can fail. -/

def fromHexDigit (b : UInt8) : Option UInt8 :=
  let n := b.toNat
  if 0x30 ≤ n && n ≤ 0x39 then some (UInt8.ofNat (n - 0x30))
  else if 0x41 ≤ n && n ≤ 0x46 then some (UInt8.ofNat (n - 0x41 + 10))
  else if 0x61 ≤ n && n ≤ 0x66 then some (UInt8.ofNat (n - 0x61 + 10))
  else none

def percentDecodeBytes : List UInt8 → List UInt8
  | [] => []
  | b :: rest =>
    if b = 0x25 then
      match rest with
      | h1 :: h2 :: tl =>
        match fromHexDigit h1, fromHexDigit h2 with
        | some v1, some v2 => (v1 * 16 + v2) :: percentDecodeBytes tl
        | some _, none => 0x25 :: h1 :: percentDecodeBytes (h2 :: tl)
        | none, _ => 0x25 :: percentDecodeBytes (h1 :: h2 :: tl)
      | _ => 0x25 :: rest
    else
      b :: percentDecodeBytes rest

/-- Model of `urlencoding::decode` on a `str` given as its character sequence:
percent-decode the UTF-8 bytes, then re-validate as UTF-8
(`String::from_utf8`); `none` models the `FromUtf8Error` case. -/
def urldecode (cs : List Char) : Option (List Char) :=
  utf8Decode (percentDecodeBytes (strToBytes cs))

/-! ## `BrowserAuthError` (browser.rs)

`std::io::Error` payloads are modelled as an opaque message record;
`MissingToken` carries the offending path, `DecodeFailed` carries the
decoder's diagnostic (the source formats the `FromUtf8Error`; we carry the
undecodable byte sequence it reports on). -/

deriving instance DecidableEq for Except

structure IOError where
  msg : String
deriving DecidableEq, Repr

inductive BrowserAuthError : Type
  | BindFailed (e : IOError)
  | LocalAddrFailed (e : IOError)
  | AcceptFailed (e : IOError)
  | ReadFailed (e : IOError)
  | InvalidRequest
  | MissingToken (path : List Char)
  | DecodeFailed (bytes : List UInt8)
  | BrowserOpenFailed (e : IOError)
deriving DecidableEq, Repr

/-- The literal prefix `/?token=` stripped by `extract_token_from_request`
(8 ASCII characters, hence 8 bytes, so the source's byte slice `&path[8..]`
is `List.drop 8` on characters whenever the prefix is present). -/
def tokenPrefixChars : List Char := ['/', '?', 't', 'o', 'k', 'e', 'n', '=']

/-- Embedding of `extract_token_from_request` (browser.rs lines 134-154): split the
request line on whitespace; fewer than two parts is `InvalidRequest`;
a second part not starting with `/?token=` is `MissingToken` with that
path; otherwise percent-decode the remainder after the 8-character
prefix, a decode failure being `DecodeFailed`. -/
def extract_token_from_request (request_line : List Char) :
    Except BrowserAuthError (List Char) :=
  let parts := splitWs request_line
  if parts.length < 2 then
    .error .InvalidRequest
  else
    let path := parts.getD 1 []
    if tokenPrefixChars.isPrefixOf path then
      let encoded_token := path.drop 8
      match urldecode encoded_token with
      | some token => .ok token
      | none => .error (.DecodeFailed (percentDecodeBytes (strToBytes encoded_token)))
    else
      .error (.MissingToken path)

/-! ## Standard base64 (the `base64` crate, `STANDARD` engine)

Standard alphabet, `=` padding; used by `generate_proof_key`. -/

def b64Alphabet : List Char :=
  ['A', 'B', 'C', 'D', 'E', 'F', 'G', 'H', 'I', 'J', 'K', 'L', 'M',
   'N', 'O', 'P', 'Q', 'R', 'S', 'T', 'U', 'V', 'W', 'X', 'Y', 'Z',
   'a', 'b', 'c', 'd', 'e', 'f', 'g', 'h', 'i', 'j', 'k', 'l', 'm',
   'n', 'o', 'p', 'q', 'r', 's', 't', 'u', 'v', 'w', 'x', 'y', 'z',
   '0', '1', '2', '3', '4', '5', '6', '7', '8', '9', '+', '/']

def b64Char (n : Nat) : Char :=
  b64Alphabet.getD n 'A'

def b64Encode : List UInt8 → List Char
  | [] => []
  | [b1] =>
    [b64Char (b1.toNat / 4), b64Char (b1.toNat % 4 * 16), '=', '=']
  | [b1, b2] =>
    [b64Char (b1.toNat / 4), b64Char (b1.toNat % 4 * 16 + b2.toNat / 16),
      b64Char (b2.toNat % 16 * 4), '=']
  | b1 :: b2 :: b3 :: rest =>
    b64Char (b1.toNat / 4) :: b64Char (b1.toNat % 4 * 16 + b2.toNat / 16) ::
      b64Char (b2.toNat % 16 * 4 + b3.toNat / 64) :: b64Char (b3.toNat % 64) ::
        b64Encode rest

/-- Embedding of `generate_proof_key` (browser.rs lines 43-49): fill 32 random bytes and
base64-encode them with the standard engine. The randomness source is
modelled as the function's input; the source fills exactly 32 bytes
(`[0u8; 32]`), so the claims constrain inputs of length 32. -/
def generate_proof_key (randomness : List UInt8) : List Char :=
  b64Encode randomness

/-! ## `create_local_listener` and `wait_for_token` (browser.rs)

The operating-system effects (bind, local_addr, accept, read, write) are
modelled by passing their outcomes as inputs; the functions below perform
exactly the control flow of the source on those outcomes. -/

structure SocketAddr where
  port : UInt16
deriving DecidableEq, Repr

structure TcpListener where
  id : Nat
deriving DecidableEq, Repr

structure TcpStream where
  id : Nat
deriving DecidableEq, Repr

/-- Embedding of `create_local_listener` (browser.rs lines 54-63): `bindResult` is the
outcome of `TcpListener::bind("127.0.0.1:0")`, `localAddrResult` the
outcome of `listener.local_addr()` on the bound listener. A bind error
maps to `BindFailed`, a local-address error to `LocalAddrFailed`, and on
success the bound listener is returned with the address's port. -/
def create_local_listener (bindResult : Except IOError TcpListener)
    (localAddrResult : Except IOError SocketAddr) :
    Except BrowserAuthError (TcpListener × UInt16) :=
  match bindResult with
  | .error e => .error (.BindFailed e)
  | .ok listener =>
    match localAddrResult with
    | .error e => .error (.LocalAddrFailed e)
    | .ok addr => .ok (listener, addr.port)

/-- The confirmation response written back to the browser (browser.rs
lines 81-126): status line, headers and a fixed HTML body. The body's
exact text is never inspected by the code or the claims; it is abbreviated
here to the status line and headers that identify it. -/
def confirmationResponse : List Char :=
  "HTTP/1.1 200 OK\nContent-Type: text/html\nConnection: close\n\n".data

/-- Embedding of `wait_for_token` (browser.rs lines 70-131): accept one connection
(`AcceptFailed` on error), read the request line (`ReadFailed` on error),
extract the token (propagating its error), then write the confirmation
response discarding the write's outcome (`let _ = stream.write_all(..)`),
and return the token. `acceptResult`, `readResult` and `writeResult` are
the outcomes of the three I/O calls. -/
def wait_for_token (acceptResult : Except IOError (TcpStream × SocketAddr))
    (readResult : Except IOError (List Char))
    (writeResult : Except IOError Unit) :
    Except BrowserAuthError (List Char) :=
  match acceptResult with
  | .error e => .error (.AcceptFailed e)
  | .ok (_stream, _addr) =>
    match readResult with
    | .error e => .error (.ReadFailed e)
    | .ok request_line =>
      match extract_token_from_request request_line with
      | .error e => .error e
      | .ok token =>
        let _ignored : Except IOError Unit := writeResult
        .ok token

/-! ## `QueryType` and `QueryContext` (connection.rs lines 30-70) -/

structure QueryContext where
  path : String
  accept_mime : String
deriving DecidableEq, Repr

inductive QueryType : Type
  | LoginRequest
  | TokenRequest
  | CloseSession
  | JsonQuery
  | ArrowQuery
deriving DecidableEq, Repr

/-- Embedding of `QueryType::query_context` (connection.rs lines 46-69). -/
def QueryType.query_context : QueryType → QueryContext
  | .LoginRequest =>
    { path := "session/v1/login-request", accept_mime := "application/json" }
  | .TokenRequest =>
    { path := "/session/token-request", accept_mime := "application/snowflake" }
  | .CloseSession =>
    { path := "session", accept_mime := "application/snowflake" }
  | .JsonQuery =>
    { path := "queries/v1/query-request", accept_mime := "application/json" }
  | .ArrowQuery =>
    { path := "queries/v1/query-request", accept_mime := "application/snowflake" }

/-- The closed set of query intents. -/
def allQueryTypes : List QueryType :=
  [.LoginRequest, .TokenRequest, .CloseSession, .JsonQuery, .ArrowQuery]

/-! ## `Connection::request` URL and header construction
(connection.rs lines 135-176)

The source computes
`format!("{}://{}{}/{}", self.scheme, account_identifier, self.base_url, context.path)`
and passes the result with the extra GET parameters to
`Url::parse_with_params`, which appends them as the query string; it then
sets the `Accept` header to the context's MIME type and, when an
authorization value is supplied, an `Authorization` header marked
sensitive. The construction below captures the built URL string, the
query parameters in order, and the header list; the network send and JSON
response decoding are outside this model. -/

structure Connection where
  base_url : String
  scheme : String
deriving DecidableEq, Repr

/-- Embedding of `Connection::new_with_middware` defaults (connection.rs lines 102-112):
base URL `.snowflakecomputing.com`, scheme HTTPS, when none are given. -/
def Connection.new_with_middware (base_url : Option String)
    (scheme : Option String) : Connection :=
  { base_url := base_url.getD ".snowflakecomputing.com",
    scheme := scheme.getD "https" }

/-- Query pairs rendered as `?k1=v1&k2=v2` (empty for no parameters), as
`Url::parse_with_params` appends them. -/
def queryString (params : List (String × String)) : String :=
  match params with
  | [] => ""
  | _ =>
    "?" ++ String.intercalate "&" (params.map (fun p => p.1 ++ "=" ++ p.2))

structure BuiltRequest where
  url : String
  headers : List (String × String)
  sensitiveHeaders : List String
deriving DecidableEq, Repr

/-- The request that `Connection::request` assembles before sending, for a
given intent, account identifier, extra GET parameters and optional
authorization value. -/
def Connection.buildRequest (conn : Connection) (query_type : QueryType)
    (account_identifier : String) (extra_get_params : List (String × String))
    (auth : Option String) : BuiltRequest :=
  let context := query_type.query_context
  let get_params := extra_get_params
  let url := conn.scheme ++ "://" ++ account_identifier ++ conn.base_url ++
    "/" ++ context.path
  let url := url ++ queryString get_params
  let baseHeaders := [("accept", context.accept_mime)]
  match auth with
  | some a =>
    { url := url, headers := baseHeaders ++ [("authorization", a)],
      sensitiveHeaders := ["authorization"] }
  | none =>
    { url := url, headers := baseHeaders, sensitiveHeaders := [] }

/-! ## Retry and correlation-identifier behaviour

Modelled from the spec: the retry middleware
(`RetryTransientMiddleware` with `ExponentialBackoff` built with
`build_with_max_retries(3)`, connection.rs lines 114-130) and the
correlation-identifier middleware (`UuidMiddleware`,
`src/snowflake-api/src/middleware.rs`, which is not under `src/`) are
modelled from the spec's words: every physical attempt is stamped with a
freshly generated correlation identifier by a middleware that runs inside
the retry loop; a transient outcome is retried up to the configured
maximum number of retries; a non-transient outcome or a success stops the
loop. Correlation identifiers are modelled as an attempt counter, so
`freshly generated` means each attempt carries the next counter value. -/

def default_max_retries : Nat := 3

inductive AttemptOutcome : Type
  | transient
  | nonTransient
  | success
deriving DecidableEq, Repr

/-- Modelled from the spec: the sequence of physical attempts (each
recorded by its correlation identifier) performed for one logical call,
starting at attempt `i`, when attempt `j` observes outcome `outcome j`.
An attempt is followed by another one exactly when its outcome is
transient and the retry budget is not exhausted. -/
def attemptsFrom (maxRetries : Nat) (outcome : Nat → AttemptOutcome)
    (i : Nat) : List Nat :=
  i ::
    (if outcome i = .transient && i < maxRetries then
      attemptsFrom maxRetries outcome (i + 1)
    else
      [])
termination_by maxRetries + 1 - i
decreasing_by
  rename_i h
  simp only [Bool.and_eq_true, decide_eq_true_eq] at h
  omega

/-- Modelled from the spec: the physical attempts of one logical call
through `Connection::request` under retry policy `maxRetries`. -/
def physicalAttempts (maxRetries : Nat) (outcome : Nat → AttemptOutcome) :
    List Nat :=
  attemptsFrom maxRetries outcome 0

/-! ## Sanity checks mirroring the repository's unit tests -/

theorem extract_token_test :
    extract_token_from_request "GET /?token=abc123 HTTP/1.1".data =
      .ok "abc123".data := by decide

theorem extract_token_url_encoded_test :
    extract_token_from_request "GET /?token=abc%20123 HTTP/1.1".data =
      .ok "abc 123".data := by decide

theorem extract_token_missing_test :
    extract_token_from_request "GET /callback HTTP/1.1".data =
      .error (.MissingToken "/callback".data) := by decide

/-! ## Helper lemmas about `splitWs` -/

theorem splitWsAux_append_nonws (w : List Char)
    (hw : ∀ c ∈ w, isRustWhitespace c = false) (acc rest : List Char) :
    splitWsAux acc (w ++ rest) = splitWsAux (w.reverse ++ acc) rest := by
  induction w generalizing acc with
  | nil => simp
  | cons c w' ih =>
    have hc : isRustWhitespace c = false := hw c (by simp)
    have hw' : ∀ d ∈ w', isRustWhitespace d = false :=
      fun d hd => hw d (by simp [hd])
    have hstep : splitWsAux acc ((c :: w') ++ rest) =
        splitWsAux (c :: acc) (w' ++ rest) := by
      simp [splitWsAux, hc]
    rw [hstep, ih hw' (c :: acc)]
    simp [List.append_assoc]

theorem splitWsAux_ws_cons (c : Char) (hc : isRustWhitespace c = true)
    (acc rest : List Char) (hacc : acc ≠ []) :
    splitWsAux acc (c :: rest) = acc.reverse :: splitWsAux [] rest := by
  have : acc.isEmpty = false := by
    cases acc with
    | nil => exact absurd rfl hacc
    | cons a tl => rfl
  simp [splitWsAux, hc, this]

theorem splitWsAux_nil (acc : List Char) (hacc : acc ≠ []) :
    splitWsAux acc [] = [acc.reverse] := by
  have : acc.isEmpty = false := by
    cases acc with
    | nil => exact absurd rfl hacc
    | cons a tl => rfl
  simp [splitWsAux, this]

/-- Splitting the canonical callback request line
`GET /?token=<T> HTTP/1.1` for a whitespace-free `T` yields exactly the
three expected parts. -/
theorem splitWs_request_line (T : List Char)
    (hT : ∀ c ∈ T, isRustWhitespace c = false) :
    splitWs ("GET /?token=".data ++ T ++ " HTTP/1.1".data) =
      ["GET".data, "/?token=".data ++ T, "HTTP/1.1".data] := by
  have hGET : ∀ c ∈ "GET".data, isRustWhitespace c = false := by decide
  have hHTTP : ∀ c ∈ "HTTP/1.1".data, isRustWhitespace c = false := by decide
  have hpath : ∀ c ∈ "/?token=".data ++ T, isRustWhitespace c = false := by
    intro c hc
    rcases List.mem_append.mp hc with h | h
    · have hpfxAll : ∀ d ∈ "/?token=".data, isRustWhitespace d = false := by
        decide
      exact hpfxAll c h
    · exact hT c h
  have hshape : "GET /?token=".data ++ T ++ " HTTP/1.1".data =
      "GET".data ++ (' ' :: (("/?token=".data ++ T) ++
        (' ' :: ("HTTP/1.1".data ++ [])))) := by
    have h1 : "GET /?token=".data = "GET".data ++ (' ' :: "/?token=".data) := by
      decide
    have h2 : " HTTP/1.1".data = ' ' :: "HTTP/1.1".data := by decide
    rw [h1, h2]
    simp [List.append_assoc]
  rw [splitWs, hshape,
    splitWsAux_append_nonws "GET".data hGET [] _,
    splitWsAux_ws_cons ' ' (by decide) _ _ (by simp),
    splitWsAux_append_nonws ("/?token=".data ++ T) hpath [] _,
    splitWsAux_ws_cons ' ' (by decide) _ _ (by simp),
    splitWsAux_append_nonws "HTTP/1.1".data hHTTP [] _,
    splitWsAux_nil _ (by simp)]
  simp

/-! ## Claim theorems -/

/-- Claim C1: for every request line of the form `GET /?token=<T> HTTP/1.1`
where `T` contains no whitespace and percent-decodes to `s`,
`extract_token_from_request` returns `Ok s` — only the fixed 8-character
`/?token=` prefix is stripped, so this includes tokens containing literal
ampersands or question marks; no generic query-string parsing happens. -/
theorem extract_token_roundtrip (T s : List Char)
    (hT : ∀ c ∈ T, isRustWhitespace c = false)
    (hdec : urldecode T = some s) :
    extract_token_from_request ("GET /?token=".data ++ T ++ " HTTP/1.1".data) =
      .ok s := by
  simp only [extract_token_from_request, splitWs_request_line T hT]
  have hpfx : tokenPrefixChars <+:
      '/' :: '?' :: 't' :: 'o' :: 'k' :: 'e' :: 'n' :: '=' :: T := by
    show tokenPrefixChars <+: tokenPrefixChars ++ T
    exact List.prefix_append _ _
  have hdrop : List.drop 8
      ('/' :: '?' :: 't' :: 'o' :: 'k' :: 'e' :: 'n' :: '=' :: T) = T := rfl
  simp [List.getD, hpfx, hdrop, hdec]

/-- Witness for C1: the token `abc%20123&x=1?y` (no whitespace, containing
literal ampersand and question mark) decodes to `abc 123&x=1?y` and is
extracted exactly. -/
theorem extract_token_roundtrip_witness :
    (∀ c ∈ "abc%20123&x=1?y".data, isRustWhitespace c = false) ∧
      urldecode "abc%20123&x=1?y".data = some "abc 123&x=1?y".data ∧
      extract_token_from_request
        ("GET /?token=".data ++ "abc%20123&x=1?y".data ++ " HTTP/1.1".data) =
        .ok "abc 123&x=1?y".data :=
  ⟨by decide, by decide,
    extract_token_roundtrip "abc%20123&x=1?y".data "abc 123&x=1?y".data
      (by decide) (by decide)⟩

/-- Claim C3: whenever the request line has at least two
whitespace-delimited parts and its second part (the path) does not start
with the literal prefix `/?token=`, extraction fails with `MissingToken`
carrying that path unchanged — the method and any other path are
irrelevant, so every callback request not matching the prefix is rejected
this way. -/
theorem missing_token_on_other_path (line : List Char)
    (hlen : 2 ≤ (splitWs line).length)
    (hpfx : tokenPrefixChars.isPrefixOf ((splitWs line).getD 1 []) = false) :
    extract_token_from_request line =
      .error (.MissingToken ((splitWs line).getD 1 [])) := by
  simp only [extract_token_from_request]
  rw [if_neg (show ¬(splitWs line).length < 2 by omega),
    if_neg (show ¬(tokenPrefixChars.isPrefixOf ((splitWs line).getD 1 []) = true) by
      simp only [hpfx]
      exact Bool.false_ne_true)]

/-- Witness for C3: the repository's own test input
`GET /callback HTTP/1.1` is rejected with `MissingToken "/callback"`. -/
theorem missing_token_on_other_path_witness :
    2 ≤ (splitWs "GET /callback HTTP/1.1".data).length ∧
      tokenPrefixChars.isPrefixOf
        ((splitWs "GET /callback HTTP/1.1".data).getD 1 []) = false ∧
      extract_token_from_request "GET /callback HTTP/1.1".data =
        .error (.MissingToken ((splitWs "GET /callback HTTP/1.1".data).getD 1 [])) :=
  ⟨by decide, by decide,
    missing_token_on_other_path "GET /callback HTTP/1.1".data
      (by decide) (by decide)⟩

/-- Claim C5: extraction fails with `InvalidRequest` exactly when the
request line has fewer than two whitespace-delimited parts; with two or
more parts the result is never `InvalidRequest`. -/
theorem invalid_request_iff_short (line : List Char) :
    extract_token_from_request line = .error .InvalidRequest ↔
      (splitWs line).length < 2 := by
  simp only [extract_token_from_request]
  by_cases h : (splitWs line).length < 2
  · simp [h]
  · rw [if_neg h]
    simp only [h, iff_false]
    split
    · split <;> simp
    · simp

/-- Claim C9: the result of `extract_token_from_request` depends only on
the second whitespace-delimited part of the request line: two lines with
at least two parts each and equal second parts extract identically — the
method and version parts are never inspected. -/
theorem extraction_depends_only_on_path (l1 l2 : List Char)
    (h1 : 2 ≤ (splitWs l1).length) (h2 : 2 ≤ (splitWs l2).length)
    (heq : (splitWs l1).getD 1 [] = (splitWs l2).getD 1 []) :
    extract_token_from_request l1 = extract_token_from_request l2 := by
  simp only [extract_token_from_request]
  rw [if_neg (show ¬(splitWs l1).length < 2 by omega),
    if_neg (show ¬(splitWs l2).length < 2 by omega), heq]

/-- Witness for C9: `POST /?token=x HTTP/1.1` and `GET /?token=x` (a
different method, and no version part at all) extract identically, both
succeeding with token `x`. -/
theorem extraction_depends_only_on_path_witness :
    2 ≤ (splitWs "POST /?token=x HTTP/1.1".data).length ∧
      2 ≤ (splitWs "GET /?token=x".data).length ∧
      (splitWs "POST /?token=x HTTP/1.1".data).getD 1 [] =
        (splitWs "GET /?token=x".data).getD 1 [] ∧
      extract_token_from_request "POST /?token=x HTTP/1.1".data =
        extract_token_from_request "GET /?token=x".data ∧
      extract_token_from_request "GET /?token=x".data = .ok "x".data :=
  ⟨by decide, by decide, by decide,
    extraction_depends_only_on_path "POST /?token=x HTTP/1.1".data
      "GET /?token=x".data (by decide) (by decide) (by decide),
    by decide⟩

/-- Claim C4: the query-type routing is a total function on the closed
five-element intent set, and the five resulting (path, MIME) pairs are
pairwise distinct: the mapped enumeration has no duplicates, and the
enumeration covers every intent. -/
theorem query_router_total_no_collisions :
    (allQueryTypes.map fun qt =>
      (qt.query_context.path, qt.query_context.accept_mime)).Nodup ∧
      ∀ qt : QueryType, qt ∈ allQueryTypes := by
  constructor
  · decide
  · intro qt
    cases qt <;> simp [allQueryTypes]

/-- Claim C7: when token extraction succeeds on the request line that was
read, `wait_for_token` returns the decoded token for every possible
outcome of the confirmation-page write — the write is best-effort and its
error is discarded. -/
theorem wait_for_token_ignores_write_result (stream : TcpStream)
    (addr : SocketAddr) (line token : List Char)
    (writeResult : Except IOError Unit)
    (hx : extract_token_from_request line = .ok token) :
    wait_for_token (.ok (stream, addr)) (.ok line) writeResult = .ok token := by
  simp [wait_for_token, hx]

/-- Witness for C7: a failing write (broken pipe) still yields the
extracted token `xyz`. -/
theorem wait_for_token_ignores_write_result_witness :
    extract_token_from_request "GET /?token=xyz HTTP/1.1".data =
        .ok "xyz".data ∧
      wait_for_token (.ok (⟨0⟩, ⟨0⟩)) (.ok "GET /?token=xyz HTTP/1.1".data)
        (.error ⟨"broken pipe"⟩) = .ok "xyz".data :=
  ⟨by decide,
    wait_for_token_ignores_write_result ⟨0⟩ ⟨0⟩ "GET /?token=xyz HTTP/1.1".data
      "xyz".data (.error ⟨"broken pipe"⟩) (by decide)⟩

/-- Claim C8: for every intent, account identifier and parameter list, the
request URL is the string
`scheme://{account_identifier}{base_url}/{path}` — one `/` inserted
between the base authority and the intent's path — followed by the query
parameters, and the `Accept` header is the intent's declared MIME type. -/
theorem request_url_and_accept_header (conn : Connection) (qt : QueryType)
    (account_identifier : String) (params : List (String × String))
    (auth : Option String) :
    (conn.buildRequest qt account_identifier params auth).url =
      conn.scheme ++ "://" ++ account_identifier ++ conn.base_url ++ "/" ++
        qt.query_context.path ++ queryString params ∧
      (conn.buildRequest qt account_identifier params auth).headers.lookup
        "accept" = some qt.query_context.accept_mime := by
  cases auth <;> simp [Connection.buildRequest, List.lookup]

/-- Claim C10: `create_local_listener` has two distinct failure modes — a
bind refusal maps to `BindFailed` and a local-address query failure on the
bound socket maps to `LocalAddrFailed` — and on success the returned pair
is exactly the bound listener together with the port of its local
address. -/
theorem create_local_listener_spec (e e2 : IOError) (l : TcpListener)
    (a : SocketAddr) (lr : Except IOError SocketAddr) :
    create_local_listener (.error e) lr = .error (.BindFailed e) ∧
      create_local_listener (.ok l) (.error e2) =
        .error (.LocalAddrFailed e2) ∧
      create_local_listener (.ok l) (.ok a) = .ok (l, a.port) ∧
      BrowserAuthError.BindFailed e ≠ BrowserAuthError.LocalAddrFailed e2 := by
  refine ⟨rfl, rfl, rfl, ?_⟩
  simp

/-! ## Helper lemmas for base64 -/

theorem b64Encode_length : ∀ bs : List UInt8,
    (b64Encode bs).length = 4 * ((bs.length + 2) / 3)
  | [] => by simp [b64Encode]
  | [b1] => by simp [b64Encode]
  | [b1, b2] => by simp [b64Encode]
  | b1 :: b2 :: b3 :: rest => by
    have ih := b64Encode_length rest
    simp [b64Encode, ih]
    omega

theorem b64Char_toNat_lt (n : Nat) : (b64Char n).toNat < 128 := by
  unfold b64Char
  rcases Nat.lt_or_ge n 64 with h | h
  · interval_cases n <;> decide
  · have hlen : b64Alphabet.length = 64 := by decide
    rw [List.getD_eq_default _ _ (by rw [hlen]; exact h)]
    decide

theorem b64Encode_ascii : ∀ bs : List UInt8, ∀ c ∈ b64Encode bs, c.toNat < 128
  | [] => by simp [b64Encode]
  | [b1] => by
    simp only [b64Encode, List.mem_cons, List.not_mem_nil, or_false]
    rintro c (rfl | rfl | rfl | rfl)
    · exact b64Char_toNat_lt _
    · exact b64Char_toNat_lt _
    · decide
    · decide
  | [b1, b2] => by
    simp only [b64Encode, List.mem_cons, List.not_mem_nil, or_false]
    rintro c (rfl | rfl | rfl | rfl)
    · exact b64Char_toNat_lt _
    · exact b64Char_toNat_lt _
    · exact b64Char_toNat_lt _
    · decide
  | b1 :: b2 :: b3 :: rest => by
    intro c hc
    simp only [b64Encode, List.mem_cons] at hc
    rcases hc with rfl | rfl | rfl | rfl | hc
    · exact b64Char_toNat_lt _
    · exact b64Char_toNat_lt _
    · exact b64Char_toNat_lt _
    · exact b64Char_toNat_lt _
    · exact b64Encode_ascii rest c hc

/-- Claim C6: for every possible value of the 32 random bytes,
`generate_proof_key` yields a 44-character ASCII string — the standard
base64 encoding with padding of 32 raw bytes. -/
theorem proof_key_length_ascii (randomness : List UInt8)
    (h : randomness.length = 32) :
    (generate_proof_key randomness).length = 44 ∧
      ∀ c ∈ generate_proof_key randomness, c.toNat < 128 := by
  refine ⟨?_, b64Encode_ascii randomness⟩
  rw [generate_proof_key, b64Encode_length, h]

/-- Witness for C6: thirty-two zero bytes encode to a 44-character key. -/
theorem proof_key_length_ascii_witness :
    (List.replicate 32 (0 : UInt8)).length = 32 ∧
      (generate_proof_key (List.replicate 32 0)).length = 44 :=
  ⟨by decide, (proof_key_length_ascii (List.replicate 32 0) (by decide)).1⟩

/-! ## Helper lemmas for the retry model -/

theorem attemptsFrom_length_all_transient (m : Nat) (o : Nat → AttemptOutcome)
    (h : ∀ j, o j = .transient) (i : Nat) (hi : i ≤ m) :
    (attemptsFrom m o i).length = m + 1 - i := by
  rw [attemptsFrom]
  by_cases hlt : i < m
  · have ih := attemptsFrom_length_all_transient m o h (i + 1) hlt
    simp [h i, hlt, ih]
    omega
  · simp [hlt]
    omega
termination_by m + 1 - i
decreasing_by omega

theorem attemptsFrom_ge (m : Nat) (o : Nat → AttemptOutcome) (i : Nat) :
    ∀ j ∈ attemptsFrom m o i, i ≤ j := by
  intro j hj
  rw [attemptsFrom] at hj
  rcases List.mem_cons.mp hj with rfl | hj'
  · exact Nat.le_refl j
  · by_cases hc : (decide (o i = .transient) && decide (i < m)) = true
    · rw [if_pos hc] at hj'
      have hi : i < m := by
        simp only [Bool.and_eq_true, decide_eq_true_eq] at hc
        exact hc.2
      have hge := attemptsFrom_ge m o (i + 1) j hj'
      omega
    · rw [if_neg hc] at hj'
      simp at hj'
termination_by m + 1 - i
decreasing_by
  simp only [Bool.and_eq_true, decide_eq_true_eq] at hc
  omega

theorem attemptsFrom_nodup (m : Nat) (o : Nat → AttemptOutcome) (i : Nat) :
    (attemptsFrom m o i).Nodup := by
  rw [attemptsFrom]
  by_cases hc : (decide (o i = .transient) && decide (i < m)) = true
  · rw [if_pos hc]
    have hi : i < m := by
      simp only [Bool.and_eq_true, decide_eq_true_eq] at hc
      exact hc.2
    refine List.nodup_cons.mpr ⟨?_, attemptsFrom_nodup m o (i + 1)⟩
    intro hmem
    have hge := attemptsFrom_ge m o (i + 1) i hmem
    omega
  · rw [if_neg hc]
    simp
termination_by m + 1 - i
decreasing_by omega

/-- Claim C2: under the configured retry policy (default: 3 retries,
connection.rs line 115), a logical call whose every attempt observes a
transient failure makes exactly `maxRetries + 1` physical attempts whose
correlation identifiers are pairwise distinct, while a call observing a
non-transient failure on the first attempt makes exactly one physical
attempt. -/
theorem retry_attempts_spec (maxRetries : Nat)
    (outcome : Nat → AttemptOutcome) :
    default_max_retries = 3 ∧
      ((∀ j, outcome j = .transient) →
        (physicalAttempts maxRetries outcome).length = maxRetries + 1 ∧
          (physicalAttempts maxRetries outcome).Nodup) ∧
      (outcome 0 = .nonTransient →
        physicalAttempts maxRetries outcome = [0]) := by
  refine ⟨rfl, fun h => ⟨?_, attemptsFrom_nodup _ _ _⟩, fun h => ?_⟩
  · have hlen :=
      attemptsFrom_length_all_transient maxRetries outcome h 0 (Nat.zero_le _)
    simpa [physicalAttempts] using hlen
  · rw [physicalAttempts, attemptsFrom]
    simp [h]

/-- Witness for C2: with the default three retries, four distinct attempts
happen under persistent transient failures, and a single attempt happens
when the first failure is non-transient. -/
theorem retry_attempts_spec_witness :
    (physicalAttempts 3 (fun _ => .transient)).length = 3 + 1 ∧
      physicalAttempts 3 (fun _ => .nonTransient) = [0] :=
  ⟨((retry_attempts_spec 3 (fun _ => .transient)).2.1 (fun _ => rfl)).1,
    (retry_attempts_spec 3 (fun _ => .nonTransient)).2.2 rfl⟩

end Snowflake
